import Mathlib

/-!
Verification of the shelly command broker (Go sources under cmd/broker).

The Go code is shallowly embedded: rooted filesystem paths are represented
as their component lists (the Go code manipulates `/`-separated strings via
`path/filepath`; `["a","b"]` stands for `/a/b` and `[]` for `/`),
machine integers as `Int`, Go maps as functions, and every filesystem or
process interaction as an explicit oracle argument so that the embedded
functions stay pure while following the source control flow line by line.
-/

namespace Shelly

/-- A rooted absolute path, as its list of components: `[]` is `/`,
`["srv","data"]` is `/srv/data`. -/
abbrev Path := List String

/-- One step of Go `filepath.Clean` on a rooted path: empty components and
`.` are dropped, `..` pops the last component (staying at the root when
already there), and anything else is pushed. -/
def cleanStep (stack : Path) (c : String) : Path :=
  if c = "" ∨ c = "." then stack
  else if c = ".." then stack.dropLast
  else stack ++ [c]

/-- Go `filepath.Clean` restricted to rooted paths, acting on the component
list: collapses duplicate separators, `.` and `..` segments. The result
contains no `""`, `"."` or `".."` component. -/
def cleanAbs (comps : List String) : Path :=
  comps.foldl cleanStep []

/-- ASCII whitespace, the common case of Go `unicode.IsSpace` (the exotic
Unicode space code points play no role in the verified properties). -/
def isSpaceChar (c : Char) : Bool :=
  c = ' ' ∨ c = '\t' ∨ c = '\n' ∨ c = '\r'

/-- Split a character list at every separator matching `p`, keeping empty
groups, as Go `strings.Split` does (structural recursion so concrete
inputs reduce definitionally). -/
def splitCharsP (p : Char → Bool) : List Char → List (List Char)
  | [] => [[]]
  | c :: cs =>
    match splitCharsP p cs with
    | [] => [[]]
    | g :: gs => if p c then [] :: g :: gs else (c :: g) :: gs

/-- Components of a path string: Go strings are split on `/`
(`filepath.Clean` then ignores the empty components this produces for
leading or duplicated separators). -/
def splitPath (p : String) : List String :=
  (splitCharsP (fun c => c = '/') p.toList).map String.mk

/-- Go `strings.TrimSpace`: drop leading and trailing whitespace. -/
def goTrim (s : String) : String :=
  String.mk (((s.toList.dropWhile isSpaceChar).reverse.dropWhile
    isSpaceChar).reverse)

/-- Go `filepath.IsAbs` on Unix: the string starts with `/`. -/
def goIsAbs (p : String) : Bool :=
  match p.toList with
  | c :: _ => c = '/'
  | [] => false

/-- Strip the common leading components of two paths, as Go `filepath.Rel`
does before inserting `..` segments. -/
def stripCommon : List String → List String → List String × List String
  | [], t => ([], t)
  | b :: bs, [] => (b :: bs, [])
  | b :: bs, t :: ts =>
    if b = t then stripCommon bs ts else (b :: bs, t :: ts)

/-- Go `filepath.Rel base targ` for two rooted, cleaned paths, as a
component list (`[]` stands for `"."`): one `..` per remaining base
component, then the remaining target components. For two rooted paths
`filepath.Rel` cannot return an error, so the embedding is total. -/
def goRel (base targ : Path) : List String :=
  List.replicate (stripCommon base targ).1.length ".." ++ (stripCommon base targ).2

/-- The containment test of `sanitizePath`:
`rel == ".." || strings.HasPrefix(rel, "../")`. On the component list of a
`/`-joined relative path whose components are `/`-free, this holds exactly
when the first component is `..`. -/
def relEscapes (rel : List String) : Bool :=
  rel.head? = some ".."

/-- The filesystem as the Go code observes it: `lstatSymlink p` tells
whether `os.Lstat` succeeds on `p` and reports a symbolic link;
`evalSymlinks p` is the result of `filepath.EvalSymlinks` (`none` = error);
`statIsDir p` is `os.Stat` (`none` = error, otherwise whether the target is
a directory). Quantifying theorems over this oracle covers every
filesystem, including ones whose symlinks point outside the base. -/
structure FSOracle where
  lstatSymlink : Path → Bool
  evalSymlinks : Path → Option Path
  statIsDir : Path → Option Bool

/-- Embeds `sanitizePath` (cmd/broker/local_exec.go): empty input is
rejected; absolute input is cleaned, relative input is joined to the
chat working directory and cleaned; the cleaned path must not escape the
base (relative-path test); if the result is itself a symlink, its resolved
target is re-checked against the base. -/
def sanitizePath (fs : FSOracle) (baseAbs cwdAbs : Path) (p : String) :
    Except String Path :=
  if goTrim p = "" then .error "empty path"
  else
    let abs : Path :=
      if goIsAbs p then cleanAbs (splitPath p)
      else cleanAbs (cwdAbs ++ splitPath p)
    let rel := goRel baseAbs abs
    if relEscapes rel then .error "path outside base_dir"
    else
      if fs.lstatSymlink abs then
        match fs.evalSymlinks abs with
        | some eval =>
          if relEscapes (goRel baseAbs eval) then
            .error "symlink points outside base_dir"
          else .ok abs
        | none => .ok abs
      else .ok abs

theorem stripCommon_fst_nil {b t : List String}
    (h : (stripCommon b t).1 = []) : b <+: t := by
  induction b generalizing t with
  | nil => exact List.nil_prefix
  | cons x bs ih =>
    cases t with
    | nil => simp [stripCommon] at h
    | cons y ts =>
      by_cases hxy : x = y
      · subst hxy
        simp only [stripCommon, if_pos rfl] at h
        obtain ⟨r, hr⟩ := ih h
        exact ⟨r, by rw [List.cons_append, hr]⟩
      · simp [stripCommon, hxy] at h

theorem relEscapes_false_of_goRel {base targ : Path}
    (h : relEscapes (goRel base targ) = false) : base <+: targ := by
  apply stripCommon_fst_nil (t := targ)
  cases hc : (stripCommon base targ).1 with
  | nil => rfl
  | cons x xs =>
    exfalso
    unfold relEscapes goRel at h
    rw [hc] at h
    simp [List.replicate] at h

theorem sanitize_tail_contained (fs : FSOracle) (baseAbs A out : Path)
    (h : (if relEscapes (goRel baseAbs A) = true then
        (Except.error "path outside base_dir" : Except String Path)
      else if fs.lstatSymlink A = true then
        match fs.evalSymlinks A with
        | some eval =>
          if relEscapes (goRel baseAbs eval) = true then
            Except.error "symlink points outside base_dir"
          else Except.ok A
        | none => Except.ok A
      else Except.ok A) = Except.ok out) :
    baseAbs <+: out := by
  split at h
  · cases h
  next hesc =>
    have hesc2 : relEscapes (goRel baseAbs A) = false := by
      revert hesc
      cases relEscapes (goRel baseAbs A) <;> simp
    have hpref := relEscapes_false_of_goRel hesc2
    split at h
    · split at h
      · split at h
        · cases h
        · injection h with h2
          exact h2 ▸ hpref
      · injection h with h2
        exact h2 ▸ hpref
    · injection h with h2
      exact h2 ▸ hpref

/-- C1: whenever `sanitizePath` succeeds, the path it returns is the base
directory itself or a descendant of it (the base components are a prefix
of the result's components), for every root, working directory, input path
— including inputs with `..` segments — and for every filesystem oracle,
in particular ones where intermediate components of the resolved path are
symlinks pointing outside the base. -/
theorem sanitizePath_contained (fs : FSOracle) (baseAbs cwdAbs : Path)
    (p : String) (out : Path)
    (h : sanitizePath fs baseAbs cwdAbs p = .ok out) :
    baseAbs <+: out := by
  simp only [sanitizePath] at h
  split at h
  · cases h
  · split at h
    · exact sanitize_tail_contained fs baseAbs _ out h
    · exact sanitize_tail_contained fs baseAbs _ out h

/-- A concrete filesystem oracle where every path is reported as a symlink
resolving to `/srv/real`: exercises the symlink re-check branch. -/
def fsSymlinkInside : FSOracle where
  lstatSymlink := fun _ => true
  evalSymlinks := fun _ => some ["srv", "real"]
  statIsDir := fun _ => none

/-- Witness for C1 at a concrete input containing a `..` segment, on a
filesystem whose entries are symlinks. -/
theorem sanitizePath_contained_witness :
    sanitizePath fsSymlinkInside ["srv"] ["srv"] "a/../b" =
      Except.ok ["srv", "b"] ∧ ["srv"] <+: ["srv", "b"] :=
  ⟨by rfl, sanitizePath_contained fsSymlinkInside ["srv"] ["srv"] "a/../b"
    ["srv", "b"] (by rfl)⟩

/-- The per-chat working-directory map `chatCWDStore.byID`
(cmd/broker/local_exec.go): a Go `map[int64]string` modelled as a function
to `Option Path`. The mutex only serialises accesses and has no sequential
content. -/
def CWDStore := Int → Option Path

/-- Embeds `chatCWDStore.get`: returns the stored directory, or stores and
returns the base on first access. Returns the (possibly updated) map. -/
def storeGet (s : CWDStore) (chatID : Int) (base : Path) : Path × CWDStore :=
  match s chatID with
  | some v => (v, s)
  | none => (base, fun c => if c = chatID then some base else s c)

/-- Embeds `chatCWDStore.set`: unconditional overwrite. -/
def storeSet (s : CWDStore) (chatID : Int) (dir : Path) : CWDStore :=
  fun c => if c = chatID then some dir else s c

/-- The working directory a chat observes: the stored entry, or the base
when none is stored yet (this is what `get` would return). -/
def cwdOf (s : CWDStore) (chatID : Int) (base : Path) : Path :=
  (s chatID).getD base

/-- Embeds the Go `CommandResponse` struct; field defaults are the Go zero
values, as composite literals leave unnamed fields at zero. -/
structure CommandResponse where
  Ok : Bool := false
  ExitCode : Int := 0
  Stdout : String := ""
  Stderr : String := ""
  Error : String := ""
deriving DecidableEq, Repr

/-- Renders a component-list path back to the `/`-separated Go string. -/
def joinPath (p : Path) : String :=
  "/" ++ String.intercalate "/" p

/-- Embeds `runSafeCd` (cmd/broker/local_exec.go): no arguments resets the
chat to the base directory; more than one argument is rejected; a single
argument is sanitised, must stat as a directory, and then becomes the new
working directory. -/
def runSafeCd (fs : FSOracle) (baseAbs : Path) (store : CWDStore)
    (chatID : Int) (args : List String) : CommandResponse × CWDStore :=
  match args with
  | [] =>
    ({ Ok := true, ExitCode := 0, Stdout := joinPath baseAbs ++ "\n" },
      storeSet store chatID baseAbs)
  | [a] =>
    let g := storeGet store chatID baseAbs
    match sanitizePath fs baseAbs g.1 a with
    | .error e => ({ Ok := false, ExitCode := 1, Error := e }, g.2)
    | .ok target =>
      match fs.statIsDir target with
      | some true =>
        ({ Ok := true, ExitCode := 0, Stdout := joinPath target ++ "\n" },
          storeSet g.2 chatID target)
      | _ => ({ Ok := false, ExitCode := 1, Error := "not a directory" }, g.2)
  | _ => ({ Ok := false, ExitCode := 1, Error := "cd accepts a single path" },
      store)

theorem storeGet_fst (s : CWDStore) (chatID : Int) (base : Path) :
    (storeGet s chatID base).1 = cwdOf s chatID base := by
  cases h : s chatID <;> simp [storeGet, cwdOf, h]

theorem storeGet_cwdOf (s : CWDStore) (chatID : Int) (base : Path) :
    cwdOf (storeGet s chatID base).2 chatID base = cwdOf s chatID base := by
  cases h : s chatID <;> simp [storeGet, cwdOf, h]

theorem cwdOf_storeSet (s : CWDStore) (chatID : Int) (base dir : Path) :
    cwdOf (storeSet s chatID dir) chatID base = dir := by
  simp [cwdOf, storeSet]

/-- C2: `cd` with no arguments always resets the chat's working directory
to the root and reports success; `cd` with one argument whose sanitised
target fails to stat or is not a directory returns `Ok = false`, exit 1,
and leaves the chat's observable working directory unchanged. -/
theorem runSafeCd_spec (fs : FSOracle) (baseAbs : Path) (store : CWDStore)
    (chatID : Int) :
    ((runSafeCd fs baseAbs store chatID []).1.Ok = true ∧
      (runSafeCd fs baseAbs store chatID []).1.ExitCode = 0 ∧
      cwdOf (runSafeCd fs baseAbs store chatID []).2 chatID baseAbs =
        baseAbs) ∧
    (∀ a target,
      sanitizePath fs baseAbs (cwdOf store chatID baseAbs) a = .ok target →
      fs.statIsDir target = none ∨ fs.statIsDir target = some false →
      (runSafeCd fs baseAbs store chatID [a]).1.Ok = false ∧
      (runSafeCd fs baseAbs store chatID [a]).1.ExitCode = 1 ∧
      cwdOf (runSafeCd fs baseAbs store chatID [a]).2 chatID baseAbs =
        cwdOf store chatID baseAbs) := by
  constructor
  · refine ⟨rfl, rfl, ?_⟩
    simp [runSafeCd, cwdOf_storeSet]
  · intro a target hs hstat
    have hs2 : sanitizePath fs baseAbs (storeGet store chatID baseAbs).1 a =
        .ok target := by rw [storeGet_fst]; exact hs
    rcases hstat with hstat | hstat <;>
      simp [runSafeCd, hs2, hstat, storeGet_cwdOf]

/-- A concrete oracle with no symlinks where `os.Stat` fails everywhere. -/
def fsStatFails : FSOracle where
  lstatSymlink := fun _ => false
  evalSymlinks := fun _ => none
  statIsDir := fun _ => none

/-- Witness for C2 at a concrete chat, store and path. -/
theorem runSafeCd_spec_witness :
    (runSafeCd fsStatFails ["srv"] (fun _ => none) 1 []).1.Ok = true ∧
      (runSafeCd fsStatFails ["srv"] (fun _ => none) 1 []).1.ExitCode = 0 ∧
      cwdOf (runSafeCd fsStatFails ["srv"] (fun _ => none) 1 []).2 1 ["srv"] =
        ["srv"] ∧
      (runSafeCd fsStatFails ["srv"] (fun _ => none) 1 ["docs"]).1.Ok =
        false ∧
      (runSafeCd fsStatFails ["srv"] (fun _ => none) 1 ["docs"]).1.ExitCode =
        1 ∧
      cwdOf (runSafeCd fsStatFails ["srv"] (fun _ => none) 1 ["docs"]).2 1
        ["srv"] = cwdOf (fun _ => none) 1 ["srv"] := by
  have h := runSafeCd_spec fsStatFails ["srv"] (fun _ => none) 1
  have h2 := h.2 "docs" ["srv", "docs"] (by rfl) (Or.inl rfl)
  exact ⟨h.1.1, h.1.2.1, h.1.2.2, h2.1, h2.2.1, h2.2.2⟩

/-- Embeds the `rateLimiter` struct (cmd/broker/main.go): sliding window
duration, maximum count, and the per-identity timestamp lists. Times are
modelled as `Int` instants; `time.Now()` becomes an explicit argument. -/
structure RateLimiter where
  window : Int
  max : Int
  stamp : Int → List Int

/-- Embeds `rateLimiter.allow`: with `max ≤ 0` limiting is disabled;
otherwise timestamps at or before `now - window` are pruned, the call is
rejected when the remaining count reaches `max`, and otherwise `now` is
recorded and the call admitted. -/
def rlAllow (r : RateLimiter) (userID now : Int) : Bool × RateLimiter :=
  if r.max ≤ 0 then (true, r)
  else
    let cut := now - r.window
    let out := (r.stamp userID).filter (fun t => cut < t)
    if r.max ≤ out.length then
      (false, { r with stamp := fun u => if u = userID then out else r.stamp u })
    else
      (true, { r with
        stamp := fun u => if u = userID then out ++ [now] else r.stamp u })

/-- Run a sequence of `allow` calls for one identity at the given instants,
collecting the verdicts. -/
def rlRun (r : RateLimiter) (u : Int) : List Int → List Bool
  | [] => []
  | t :: ts =>
    let s := rlAllow r u t
    s.1 :: rlRun s.2 u ts

/-- C3: a limiter with window 60 and max 3 admits the first three calls of
an identity and rejects the fourth when all four fall within one window;
once the window has elapsed past the recorded timestamps a further call is
admitted again; and any limiter with `max ≤ 0` admits every call. -/
theorem rlAllow_spec (u t1 t2 t3 t4 : Int)
    (h12 : t1 ≤ t2) (h23 : t2 ≤ t3) (h34 : t3 ≤ t4) (hw : t4 < t1 + 60) :
    rlRun ⟨60, 3, fun _ => []⟩ u [t1, t2, t3, t4] =
      [true, true, true, false] ∧
    (∀ t5, t3 + 60 ≤ t5 →
      rlRun ⟨60, 3, fun _ => []⟩ u [t1, t2, t3, t4, t5] =
        [true, true, true, false, true]) ∧
    (∀ (r : RateLimiter) (v now : Int), r.max ≤ 0 →
      (rlAllow r v now).1 = true) := by
  have k1 : (t2 - 60 < t1) := by omega
  have k2 : (t3 - 60 < t1) ∧ (t3 - 60 < t2) := by omega
  have k3 : (t4 - 60 < t1) ∧ (t4 - 60 < t2) ∧ (t4 - 60 < t3) := by omega
  refine ⟨?_, ?_, ?_⟩
  · simp [rlRun, rlAllow, List.filter, k1, k2.1, k2.2, k3.1, k3.2.1, k3.2.2]
  · intro t5 h5
    have k5 : ¬ (t5 - 60 < t1) ∧ ¬ (t5 - 60 < t2) ∧ ¬ (t5 - 60 < t3) := by
      omega
    simp [rlRun, rlAllow, List.filter, k1, k2.1, k2.2, k3.1, k3.2.1, k3.2.2,
      k5.1, k5.2.1, k5.2.2]
  · intro r v now hmax
    simp [rlAllow, hmax]

/-- Witness for C3 at concrete instants 0, 10, 20, 30 and 100. -/
theorem rlAllow_spec_witness :
    rlRun ⟨60, 3, fun _ => []⟩ 7 [0, 10, 20, 30] =
      [true, true, true, false] ∧
    rlRun ⟨60, 3, fun _ => []⟩ 7 [0, 10, 20, 30, 100] =
      [true, true, true, false, true] ∧
    (rlAllow ⟨60, 0, fun _ => []⟩ 7 0).1 = true := by
  have h := rlAllow_spec 7 0 10 20 30 (by omega) (by omega) (by omega)
    (by omega)
  exact ⟨h.1, h.2.1 100 (by omega), h.2.2 ⟨60, 0, fun _ => []⟩ 7 0
    (le_refl 0)⟩

/-- The errors `cmd.Run` can produce, as the broker distinguishes them:
the context's deadline error, an `exec.ExitError` carrying the process
exit code and its `Error()` text, or any other error with its text.
`errors.As` on an `exec.ExitError` succeeds exactly for `exitError`. -/
inductive GoError where
  | deadlineExceeded
  | exitError (code : Int) (msg : String)
  | other (msg : String)
deriving DecidableEq, Repr

/-- Go `err.Error()` for the modelled errors. -/
def errMsg : GoError → String
  | .deadlineExceeded => "context deadline exceeded"
  | .exitError _ m => m
  | .other m => m

/-- Whether `s` starts with `sub` (on character lists). -/
def startsWithList (sub s : List Char) : Bool :=
  match sub, s with
  | [], _ => true
  | _ :: _, [] => false
  | a :: as, b :: bs => a = b && startsWithList as bs

/-- Substring search on character lists: `sub` occurs somewhere in `s`. -/
def containsList (sub : List Char) : List Char → Bool
  | [] => startsWithList sub []
  | c :: cs => startsWithList sub (c :: cs) || containsList sub cs

/-- Go `strings.Contains`. -/
def goContains (s sub : String) : Bool :=
  containsList sub.toList s.toList

/-- Embeds `exitCode` (cmd/broker/local_exec.go): deadline error → 124,
error text containing "signal: killed" → 137, `exec.ExitError` → its exit
code, anything else → 1 (the `err == nil` branch of the source is
unreachable, as the function is only called on a non-nil error, and a nil
error would already have crashed the preceding `err.Error()` call). -/
def exitCode (err : GoError) : Int :=
  if err = GoError.deadlineExceeded then 124
  else if goContains (errMsg err) "signal: killed" then 137
  else
    match err with
    | .exitError code _ => code
    | _ => 1

/-- C6: the exit-code normalization maps the timeout (deadline) error to
124, any error whose text reports a kill signal to 137, a natural process
exit to its real exit status, and any other spawn error to 1. -/
theorem exitCode_spec :
    exitCode GoError.deadlineExceeded = 124 ∧
    (∀ err : GoError, err ≠ GoError.deadlineExceeded →
      goContains (errMsg err) "signal: killed" = true → exitCode err = 137) ∧
    (∀ (code : Int) (msg : String),
      goContains msg "signal: killed" = false →
      exitCode (GoError.exitError code msg) = code) ∧
    (∀ msg : String, goContains msg "signal: killed" = false →
      exitCode (GoError.other msg) = 1) := by
  refine ⟨rfl, ?_, ?_, ?_⟩
  · intro err hne hsig
    simp [exitCode, hne, hsig]
  · intro code msg hsig
    have hne : GoError.exitError code msg ≠ GoError.deadlineExceeded := by
      intro h
      cases h
    simp [exitCode, hne, errMsg, hsig]
  · intro msg hsig
    have hne : GoError.other msg ≠ GoError.deadlineExceeded := by
      intro h
      cases h
    simp [exitCode, hne, errMsg, hsig]

/-- Witness for C6 at concrete errors: a kill-signal error, a natural exit
with status 2, and an unclassified spawn failure. -/
theorem exitCode_spec_witness :
    exitCode GoError.deadlineExceeded = 124 ∧
    exitCode (GoError.exitError (-1) "signal: killed") = 137 ∧
    exitCode (GoError.exitError 2 "exit status 2") = 2 ∧
    exitCode (GoError.other "fork/exec: no such file") = 1 := by
  have h := exitCode_spec
  exact ⟨h.1,
    h.2.1 (GoError.exitError (-1) "signal: killed") (by decide) (by decide),
    h.2.2.1 2 "exit status 2" (by decide),
    h.2.2.2 "fork/exec: no such file" (by decide)⟩

/-- ASCII lower-casing of one character (Go `strings.ToLower` and
`strings.EqualFold` perform Unicode simple folding; all command names and
configuration entries involved are ASCII). -/
def lowerChar (c : Char) : Char :=
  if 65 ≤ c.toNat ∧ c.toNat ≤ 90 then Char.ofNat (c.toNat + 32) else c

/-- Go `strings.ToLower` (ASCII). -/
def lowerStr (s : String) : String :=
  String.mk (s.toList.map lowerChar)

/-- Go `strings.EqualFold` (ASCII). -/
def goEqualFold (a b : String) : Bool :=
  lowerStr a = lowerStr b

/-- Go `strings.HasPrefix`. -/
def goStartsWith (s pre : String) : Bool :=
  startsWithList pre.toList s.toList

/-- Go `strings.Fields`: split on whitespace, dropping empty fields. -/
def goFields (s : String) : List String :=
  ((splitCharsP isSpaceChar s.toList).filter (fun g => g ≠ [])).map String.mk

/-- Go `strings.TrimPrefix(cmd, "/")`. -/
def trimSlash (cmd : String) : String :=
  match cmd.toList with
  | '/' :: rest => String.mk rest
  | _ => cmd

/-- Embeds `normalizeCommand` (cmd/broker/main.go): first whitespace field,
leading `/` stripped and lower-cased, is the command; the remaining fields
are the arguments. -/
def normalizeCommand (text : String) : String × List String :=
  match goFields (goTrim text) with
  | [] => ("", [])
  | cmd :: rest => (lowerStr (trimSlash cmd), rest)

/-- Embeds `isAllowed` (cmd/broker/main.go): identity allow-set membership. -/
def isAllowed (userID : Int) (allowed : List Int) : Bool :=
  allowed.any (fun id => id = userID)

/-- Embeds `isCommandAllowed`: case-folded allowlist membership. -/
def isCommandAllowed (cmd : String) (allow : List String) : Bool :=
  allow.any (fun c => goEqualFold cmd c)

/-- Embeds `isCommandBlocked`: case-folded blocklist membership. -/
def isCommandBlocked (cmd : String) (block : List String) : Bool :=
  block.any (fun c => goEqualFold cmd c)

/-- Embeds the Go `AllowedCommand` struct: fixed executable and fixed
argument list of a static command. -/
structure AllowedCommand where
  Exec : String
  Args : List String
deriving DecidableEq, Repr

/-- Embeds the Go `CommandRequest` struct. -/
structure CommandRequest where
  Command : String
  UserID : Int
  ChatID : Int
  Text : String
  Args : List String
deriving DecidableEq, Repr

/-- Embeds the Go `LLMDecision` struct. `float64` confidence is modelled as
a rational: the pipeline only compares it against the threshold. `Typ`
stands for the Go field `Type` (a keyword here). -/
structure LLMDecision where
  Typ : String
  Intent : String
  Args : List String
  Response : String
  Confidence : ℚ
deriving DecidableEq, Repr

/-- The fields of the Go `BrokerConfig` that the mediation pipeline and the
local executor read; the `map[string]AllowedCommand` allowlist is a
function to `Option`. -/
structure BrokerConfig where
  TelegramBotToken : String := ""
  TelegramAllowedUserIDs : List Int := []
  RateLimitPerMinute : Int := 0
  CommandAllowlist : List String := []
  CommandBlocklist : List String := []
  LLMEnabled : Bool := false
  LLMConfidenceThreshold : ℚ := 0
  LocalDefaultTimeoutSec : Int := 0
  LocalMaxOutputKB : Int := 0
  LocalCommandAllowlist : String → Option AllowedCommand := fun _ => none
  LocalDynamicAllowlist : List String := []
  LocalBaseDir : String := ""

/-- Embeds `renderResponse` (cmd/broker/main.go). -/
def renderResponse (cmd : String) (resp : CommandResponse) : String :=
  if resp.Ok then
    let out := goTrim resp.Stdout
    let out2 := if out = "" then "(no output)" else out
    cmd ++ ":\n" ++ out2
  else
    let errM := if resp.Error = "" then "command failed" else resp.Error
    let out := goTrim resp.Stderr
    let out2 := if out = "" then goTrim resp.Stdout else out
    if out2 ≠ "" then
      cmd ++ " failed (exit " ++ toString resp.ExitCode ++ "): " ++ errM ++
        "\n" ++ out2
    else
      cmd ++ " failed (exit " ++ toString resp.ExitCode ++ "): " ++ errM

/-- Embeds the Go `TelegramUser` struct (only the id matters to the core). -/
structure TelegramUser where
  ID : Int
  UserName : String := ""
  FirstName : String := ""

/-- Embeds the Go `TelegramChat` struct. -/
structure TelegramChat where
  ID : Int
  Typ : String := ""

/-- Embeds the Go `TelegramMessage` struct. -/
structure TelegramMessage where
  MessageID : Int := 0
  From : TelegramUser
  Chat : TelegramChat
  Date : Int := 0
  Text : String

/-- Embeds the Go `TelegramUpdate` struct. -/
structure TelegramUpdate where
  UpdateID : Int := 0
  Message : Option TelegramMessage

/-- The ASCII apostrophe, by code point. -/
def apos : String := String.singleton (Char.ofNat 39)

/-- The fixed reply when an LLM chat decision carries no response text. -/
def didNotUnderstandMsg : String :=
  "I didn" ++ apos ++ "t understand that. Try a command or ask again."

/-- The fixed reply when an LLM command decision carries no intent. -/
def couldNotDetermineMsg : String :=
  "I couldn" ++ apos ++ "t determine a command. Try again."

/-- What one `processUpdate` run did: the replies handed to
`sendTelegramMessage` in order, the requests handed to the executor, the
texts handed to `mapWithLLM`, and the rate-limiter state left behind. -/
structure PipelineResult where
  sent : List (Int × String)
  execCalls : List CommandRequest
  llmCalls : List String
  rl : RateLimiter

/-- Embeds `processUpdate` (cmd/broker/main.go): extract → authorize →
rate-limit → route (direct parse, or LLM classification when enabled) →
help / blocklist / allowlist policy → execute → render and reply. The LLM
and the executor are oracles (`Except` models the Go error returns);
`time.Now()` inside the rate limiter is the explicit `now`. -/
def processUpdate (cfg : BrokerConfig) (rl : RateLimiter) (now : Int)
    (llm : String → Except String LLMDecision)
    (exec : CommandRequest → Except String CommandResponse)
    (update : TelegramUpdate) : PipelineResult :=
  match update.Message with
  | none => ⟨[], [], [], rl⟩
  | some msg =>
    let userID := msg.From.ID
    let chatID := msg.Chat.ID
    if !isAllowed userID cfg.TelegramAllowedUserIDs then
      ⟨[(chatID, "Unauthorized user.")], [], [], rl⟩
    else
      let rla := rlAllow rl userID now
      if !rla.1 then
        ⟨[(chatID, "Rate limit exceeded. Try again soon.")], [], [], rla.2⟩
      else if cfg.LLMEnabled then
        match llm msg.Text with
        | .error e =>
          ⟨[(chatID, "LLM error: " ++ e)], [], [msg.Text], rla.2⟩
        | .ok decision =>
          if goEqualFold decision.Typ "chat" then
            if goTrim decision.Response = "" then
              ⟨[(chatID, didNotUnderstandMsg)], [], [msg.Text], rla.2⟩
            else
              ⟨[(chatID, decision.Response)], [], [msg.Text], rla.2⟩
          else
            let cmd := lowerStr (goTrim decision.Intent)
            if cmd = "" then
              ⟨[(chatID, couldNotDetermineMsg)], [], [msg.Text], rla.2⟩
            else if decision.Confidence < cfg.LLMConfidenceThreshold then
              ⟨[(chatID, "I am not confident this is a command. Please rephrase or use a direct command.")],
                [], [msg.Text], rla.2⟩
            else if cmd = "help" then
              ⟨[(chatID, "Allowed commands: " ++
                String.intercalate ", " cfg.CommandAllowlist)],
                [], [msg.Text], rla.2⟩
            else if isCommandBlocked cmd cfg.CommandBlocklist then
              ⟨[(chatID, "Command blocked.")], [], [msg.Text], rla.2⟩
            else if !isCommandAllowed cmd cfg.CommandAllowlist then
              ⟨[(chatID, "Command not allowed.")], [], [msg.Text], rla.2⟩
            else
              let req : CommandRequest :=
                ⟨cmd, userID, chatID, msg.Text, decision.Args⟩
              match exec req with
              | .error e =>
                ⟨[(chatID, "Agent error: " ++ e)], [req], [msg.Text], rla.2⟩
              | .ok resp =>
                ⟨[(chatID, renderResponse cmd resp)], [req], [msg.Text],
                  rla.2⟩
      else
        let norm := normalizeCommand msg.Text
        let cmd := norm.1
        let args := norm.2
        if cmd = "" then
          ⟨[(chatID, "Empty command.")], [], [], rla.2⟩
        else if cmd = "help" then
          ⟨[(chatID, "Allowed commands: " ++
            String.intercalate ", " cfg.CommandAllowlist)], [], [], rla.2⟩
        else if isCommandBlocked cmd cfg.CommandBlocklist then
          ⟨[(chatID, "Command blocked.")], [], [], rla.2⟩
        else if !isCommandAllowed cmd cfg.CommandAllowlist then
          ⟨[(chatID, "Command not allowed.")], [], [], rla.2⟩
        else
          let req : CommandRequest := ⟨cmd, userID, chatID, msg.Text, args⟩
          match exec req with
          | .error e => ⟨[(chatID, "Agent error: " ++ e)], [req], [], rla.2⟩
          | .ok resp =>
            ⟨[(chatID, renderResponse cmd resp)], [req], [], rla.2⟩

/-- C7: a message whose sender identity is not in the allow-set causes the
pipeline to produce exactly one "Unauthorized user." reply to the message's
chat; the executor and the LLM router are never invoked and the rate
limiter is not even consulted (its state is untouched). -/
theorem processUpdate_unauthorized (cfg : BrokerConfig) (rl : RateLimiter)
    (now : Int) (llm : String → Except String LLMDecision)
    (exec : CommandRequest → Except String CommandResponse)
    (update : TelegramUpdate) (msg : TelegramMessage)
    (hmsg : update.Message = some msg)
    (hauth : isAllowed msg.From.ID cfg.TelegramAllowedUserIDs = false) :
    (processUpdate cfg rl now llm exec update).sent =
      [(msg.Chat.ID, "Unauthorized user.")] ∧
    (processUpdate cfg rl now llm exec update).execCalls = [] ∧
    (processUpdate cfg rl now llm exec update).llmCalls = [] ∧
    (processUpdate cfg rl now llm exec update).rl = rl := by
  simp [processUpdate, hmsg, hauth]

/-- Witness for C7: a concrete sender outside the allow-set. -/
theorem processUpdate_unauthorized_witness :
    (processUpdate { TelegramAllowedUserIDs := [1] } ⟨60, 0, fun _ => []⟩ 0
      (fun _ => .error "unused") (fun _ => .error "unused")
      ⟨0, some { From := { ID := 2 }, Chat := { ID := 99 }, Text := "status" }⟩).sent =
      [(99, "Unauthorized user.")] ∧
    (processUpdate { TelegramAllowedUserIDs := [1] } ⟨60, 0, fun _ => []⟩ 0
      (fun _ => .error "unused") (fun _ => .error "unused")
      ⟨0, some { From := { ID := 2 }, Chat := { ID := 99 }, Text := "status" }⟩).execCalls = [] := by
  have h := processUpdate_unauthorized { TelegramAllowedUserIDs := [1] }
    ⟨60, 0, fun _ => []⟩ 0 (fun _ => .error "unused")
    (fun _ => .error "unused") ⟨0, some { From := { ID := 2 }, Chat := { ID := 99 }, Text := "status" }⟩
    { From := { ID := 2 }, Chat := { ID := 99 }, Text := "status" } rfl (by decide)
  exact ⟨h.1, h.2.1⟩

/-- C4: an authorized, rate-admitted direct-parse message whose command is
in both the blocklist and the allowlist (and which does not hit the earlier
empty-command or help short-circuits) receives exactly the terminal
"Command blocked." reply, and the executor is never invoked — so the
blocklist takes precedence over the allowlist. -/
theorem processUpdate_blocklist_precedence (cfg : BrokerConfig)
    (rl : RateLimiter) (now : Int)
    (llm : String → Except String LLMDecision)
    (exec : CommandRequest → Except String CommandResponse)
    (update : TelegramUpdate) (msg : TelegramMessage)
    (hmsg : update.Message = some msg)
    (hauth : isAllowed msg.From.ID cfg.TelegramAllowedUserIDs = true)
    (hrl : (rlAllow rl msg.From.ID now).1 = true)
    (hllm : cfg.LLMEnabled = false)
    (hne : (normalizeCommand msg.Text).1 ≠ "")
    (hnh : (normalizeCommand msg.Text).1 ≠ "help")
    (hb : isCommandBlocked (normalizeCommand msg.Text).1
      cfg.CommandBlocklist = true)
    (ha : isCommandAllowed (normalizeCommand msg.Text).1
      cfg.CommandAllowlist = true) :
    (processUpdate cfg rl now llm exec update).sent =
      [(msg.Chat.ID, "Command blocked.")] ∧
    (processUpdate cfg rl now llm exec update).execCalls = [] := by
  simp [processUpdate, hmsg, hauth, hrl, hllm, hne, hnh, hb, ha]

/-- Witness for C4: the command `wipe` configured in both lists. -/
theorem processUpdate_blocklist_precedence_witness :
    (processUpdate
      { TelegramAllowedUserIDs := [1], CommandAllowlist := ["wipe"],
        CommandBlocklist := ["wipe"] } ⟨60, 0, fun _ => []⟩ 0
      (fun _ => .error "unused") (fun _ => .error "unused")
      ⟨0, some { From := { ID := 1 }, Chat := { ID := 99 }, Text := "wipe now" }⟩).sent =
      [(99, "Command blocked.")] ∧
    (processUpdate
      { TelegramAllowedUserIDs := [1], CommandAllowlist := ["wipe"],
        CommandBlocklist := ["wipe"] } ⟨60, 0, fun _ => []⟩ 0
      (fun _ => .error "unused") (fun _ => .error "unused")
      ⟨0, some { From := { ID := 1 }, Chat := { ID := 99 }, Text := "wipe now" }⟩).execCalls = [] :=
  processUpdate_blocklist_precedence
    { TelegramAllowedUserIDs := [1], CommandAllowlist := ["wipe"],
      CommandBlocklist := ["wipe"] } ⟨60, 0, fun _ => []⟩ 0
    (fun _ => .error "unused") (fun _ => .error "unused")
    ⟨0, some { From := { ID := 1 }, Chat := { ID := 99 }, Text := "wipe now" }⟩ { From := { ID := 1 }, Chat := { ID := 99 }, Text := "wipe now" }
    rfl (by decide) (by decide) rfl (by decide) (by decide) (by decide)
    (by decide)

/-- The UTF-8 bytes of the truncation marker `"\n[truncated]\n"`. -/
def truncMarker : List UInt8 :=
  [10, 91, 116, 114, 117, 110, 99, 97, 116, 101, 100, 93, 10]

/-- Embeds `limitOutput` (cmd/broker/local_exec.go) at the byte level: a Go
string is a byte slice, `len` and `s[:maxBytes]` are byte-based, so the
stream is a byte list here. At most `maxKB*1024` bytes are kept; when the
input is longer, the first `maxKB*1024` bytes are followed by the literal
truncation marker. -/
def limitOutput (s : List UInt8) (maxKB : Int) : List UInt8 :=
  if (s.length : Int) ≤ maxKB * 1024 then s
  else s.take (maxKB * 1024).toNat ++ truncMarker

/-- C10: with a positive `maxKB`, `limitOutput` returns its input unchanged
when the byte length is within `maxKB*1024`, and otherwise returns exactly
the first `maxKB*1024` bytes followed by the truncation marker — so the
delivered length strictly exceeds the configured ceiling, by exactly the
marker's length. -/
theorem limitOutput_spec (s : List UInt8) (maxKB : Int) (hpos : 0 < maxKB) :
    ((s.length : Int) ≤ maxKB * 1024 → limitOutput s maxKB = s) ∧
    (maxKB * 1024 < (s.length : Int) →
      limitOutput s maxKB = s.take (maxKB * 1024).toNat ++ truncMarker ∧
      (limitOutput s maxKB).length = (maxKB * 1024).toNat +
        truncMarker.length ∧
      maxKB * 1024 < ((limitOutput s maxKB).length : Int)) := by
  constructor
  · intro hle
    simp [limitOutput, hle]
  · intro hgt
    have hnle : ¬ ((s.length : Int) ≤ maxKB * 1024) := by omega
    have heq : limitOutput s maxKB =
        s.take (maxKB * 1024).toNat ++ truncMarker := by
      simp [limitOutput, hnle]
    have htake : (s.take (maxKB * 1024).toNat).length =
        (maxKB * 1024).toNat := by
      rw [List.length_take]
      omega
    have hlen : (limitOutput s maxKB).length =
        (maxKB * 1024).toNat + truncMarker.length := by
      rw [heq, List.length_append, htake]
    refine ⟨heq, hlen, ?_⟩
    rw [hlen]
    have hm : truncMarker.length = 13 := by decide
    omega

/-- Witness for C10 at `maxKB = 1`: a 2-byte stream passes unchanged, and a
1030-byte stream is cut at 1024 bytes and then exceeds the ceiling by the
13-byte marker. -/
theorem limitOutput_spec_witness :
    limitOutput [65, 66] 1 = [65, 66] ∧
    limitOutput (List.replicate 1030 (0 : UInt8)) 1 =
      (List.replicate 1030 (0 : UInt8)).take 1024 ++ truncMarker ∧
    (limitOutput (List.replicate 1030 (0 : UInt8)) 1).length = 1024 + 13 := by
  have h1 := (limitOutput_spec [65, 66] 1 (by omega)).1
    (by simp only [List.length_cons, List.length_nil]; omega)
  have h2 := (limitOutput_spec (List.replicate 1030 (0 : UInt8)) 1
    (by omega)).2 (by simp only [List.length_replicate]; omega)
  refine ⟨h1, h2.1, ?_⟩
  rw [h2.2.1]
  decide

/-- The observation the executor makes of one `cmd.Run` call: the error (if
any) and the captured output streams. The oracle `run` maps an executable
and argument list to such an outcome. -/
structure RunOutcome where
  err : Option GoError
  stdout : String
  stderr : String

/-- Prefix of a character list whose UTF-8 encoding fits in `maxB` bytes:
the string-level counterpart of Go's byte slicing (exact byte semantics of
the truncation cut are verified on `limitOutput` above; Go may cut inside
a multi-byte character, which a Lean `String` cannot represent). -/
def takeBytes (maxB : Nat) : List Char → List Char
  | [] => []
  | c :: cs => if c.utf8Size ≤ maxB then c :: takeBytes (maxB - c.utf8Size) cs
    else []

/-- `limitOutput` as the executor applies it to captured `String` streams. -/
def limitOutputStr (s : String) (maxKB : Int) : String :=
  if (s.utf8ByteSize : Int) ≤ maxKB * 1024 then s
  else String.mk (takeBytes (maxKB * 1024).toNat s.toList) ++ "\n[truncated]\n"

/-- Embeds `isDynamicAllowed` (cmd/broker/local_exec.go). -/
def isDynamicAllowed (cmd : String) (allowed : List String) : Bool :=
  allowed.any (fun a => goEqualFold cmd a)

/-- Embeds `isAllowedLsFlag` (cmd/broker/local_exec.go). -/
def isAllowedLsFlag (flag : String) : Bool :=
  flag = "-a" ∨ flag = "-l" ∨ flag = "-h" ∨ flag = "-t" ∨ flag = "-r" ∨
    flag = "-1" ∨ flag = "-la" ∨ flag = "-al"

/-- Embeds `runCommand` (cmd/broker/local_exec.go): one process spawn in
the working directory `dir`, outcome classified through `exitCode`, both
streams capped. Also reports the spawned (executable, argv) pair. -/
def runCommand (run : String → List String → RunOutcome) (dir : Path)
    (execPath : String) (args : List String) (maxKB : Int) :
    CommandResponse × List (String × List String) :=
  let oc := run execPath args
  let base : CommandResponse :=
    match oc.err with
    | none => { Ok := true, ExitCode := 0 }
    | some e => { Ok := false, ExitCode := exitCode e, Error := errMsg e }
  ({ base with
      Stdout := limitOutputStr oc.stdout maxKB,
      Stderr := limitOutputStr oc.stderr maxKB },
    [(execPath, args)])

/-- The argument loop of `runSafeList`: flags must be in the fixed
allow-set, non-flag tokens go through `sanitizePath`; the first offending
argument aborts with its error response. -/
def collectLsArgs (fs : FSOracle) (baseAbs cwdAbs : Path) :
    List String → Except CommandResponse (List String × List String)
  | [] => .ok ([], [])
  | a :: rest =>
    if goStartsWith a "-" then
      if !isAllowedLsFlag a then
        .error { Ok := false, ExitCode := 1,
                 Error := "ls flag not allowed: " ++ a }
      else
        match collectLsArgs fs baseAbs cwdAbs rest with
        | .error r => .error r
        | .ok fp => .ok (a :: fp.1, fp.2)
    else
      match sanitizePath fs baseAbs cwdAbs a with
      | .error e => .error { Ok := false, ExitCode := 1, Error := e }
      | .ok p =>
        match collectLsArgs fs baseAbs cwdAbs rest with
        | .error r => .error r
        | .ok fp => .ok (fp.1, joinPath p :: fp.2)

/-- Embeds `runSafeList` (cmd/broker/local_exec.go): `ll` implies `-la`;
flags and paths are validated; with no path argument the chat working
directory is listed; `/bin/ls` runs in the chat working directory. -/
def runSafeList (fs : FSOracle) (run : String → List String → RunOutcome)
    (baseAbs cwdAbs : Path) (cmd : String) (args : List String)
    (maxKB : Int) : CommandResponse × List (String × List String) :=
  let flags0 : List String := if lowerStr cmd = "ll" then ["-la"] else []
  match collectLsArgs fs baseAbs cwdAbs args with
  | .error r => (r, [])
  | .ok fp =>
    let paths := if fp.2 = [] then [joinPath cwdAbs] else fp.2
    runCommand run cwdAbs "/bin/ls" ((flags0 ++ fp.1) ++ paths) maxKB

/-- The argument loop of `runSafeCat`: no flags at all, every token goes
through `sanitizePath`. -/
def collectCatArgs (fs : FSOracle) (baseAbs cwdAbs : Path) :
    List String → Except CommandResponse (List String)
  | [] => .ok []
  | a :: rest =>
    if goStartsWith a "-" then
      .error { Ok := false, ExitCode := 1, Error := "cat flags not allowed" }
    else
      match sanitizePath fs baseAbs cwdAbs a with
      | .error e => .error { Ok := false, ExitCode := 1, Error := e }
      | .ok p =>
        match collectCatArgs fs baseAbs cwdAbs rest with
        | .error r => .error r
        | .ok ps => .ok (joinPath p :: ps)

/-- Embeds `runSafeCat` (cmd/broker/local_exec.go): at least one path, no
flags; `/bin/cat` runs in the base directory. -/
def runSafeCat (fs : FSOracle) (run : String → List String → RunOutcome)
    (baseAbs cwdAbs : Path) (args : List String) (maxKB : Int) :
    CommandResponse × List (String × List String) :=
  if args = [] then
    ({ Ok := false, ExitCode := 1, Error := "cat requires a file path" }, [])
  else
    match collectCatArgs fs baseAbs cwdAbs args with
    | .error r => (r, [])
    | .ok ps => runCommand run baseAbs "/bin/cat" ps maxKB

/-- `filepath.Abs` for the configured base directory, which deployments
set to an absolute path (for an absolute input `Abs` is just `Clean`; a
relative input would be joined to the broker process's own working
directory, which none of the verified claims involve). -/
def goAbs (p : String) : Path :=
  cleanAbs (splitPath p)

/-- Embeds `handleDynamicCommand` (cmd/broker/local_exec.go): requires a
configured base directory, then dispatches on the lower-cased command to
the sandboxed handlers (`pwd`, `ls`/`ll`, `cat`, `cd`); anything else is
unsupported. Returns the response, the updated working-directory store and
the processes spawned. -/
def handleDynamicCommand (fs : FSOracle)
    (run : String → List String → RunOutcome) (cfg : BrokerConfig)
    (store : CWDStore) (chatID : Int) (cmd : String) (args : List String) :
    CommandResponse × CWDStore × List (String × List String) :=
  let base := goTrim cfg.LocalBaseDir
  if base = "" then
    ({ Ok := false, ExitCode := 1, Error := "local_base_dir not configured" },
      store, [])
  else
    let baseAbs := goAbs base
    if lowerStr cmd = "pwd" then
      let g := storeGet store chatID baseAbs
      ({ Ok := true, ExitCode := 0, Stdout := joinPath g.1 ++ "\n" }, g.2, [])
    else if lowerStr cmd = "ls" ∨ lowerStr cmd = "ll" then
      let g := storeGet store chatID baseAbs
      let r := runSafeList fs run baseAbs g.1 cmd args cfg.LocalMaxOutputKB
      (r.1, g.2, r.2)
    else if lowerStr cmd = "cat" then
      let g := storeGet store chatID baseAbs
      let r := runSafeCat fs run baseAbs g.1 args cfg.LocalMaxOutputKB
      (r.1, g.2, r.2)
    else if lowerStr cmd = "cd" then
      let r := runSafeCd fs baseAbs store chatID args
      (r.1, r.2, [])
    else
      ({ Ok := false, ExitCode := 1, Error := "unsupported dynamic command" },
        store, [])

/-- Embeds `localExecutor.Execute` (cmd/broker/local_exec.go): empty
command rejected before anything else; dynamic-allowlisted commands go to
the sandboxed dispatcher; otherwise the static allowlist is consulted and
the configured executable is spawned with exactly its configured arguments.
Returns the response, the working-directory store and the spawned
(executable, argv) pairs. -/
def localExecute (cfg : BrokerConfig) (fs : FSOracle)
    (run : String → List String → RunOutcome) (store : CWDStore)
    (req : CommandRequest) :
    CommandResponse × CWDStore × List (String × List String) :=
  let cmdName := goTrim req.Command
  if cmdName = "" then
    ({ Ok := false, ExitCode := 1, Error := "empty command" }, store, [])
  else if isDynamicAllowed cmdName cfg.LocalDynamicAllowlist then
    handleDynamicCommand fs run cfg store req.ChatID cmdName req.Args
  else
    match cfg.LocalCommandAllowlist cmdName with
    | none =>
      ({ Ok := false, ExitCode := 1, Error := "command not allowed" },
        store, [])
    | some allowed =>
      let oc := run allowed.Exec allowed.Args
      let base : CommandResponse :=
        match oc.err with
        | none => { Ok := true, ExitCode := 0 }
        | some e =>
          { Ok := false, ExitCode := exitCode e, Error := errMsg e }
      ({ base with
          Stdout := limitOutputStr oc.stdout cfg.LocalMaxOutputKB,
          Stderr := limitOutputStr oc.stderr cfg.LocalMaxOutputKB },
        store, [(allowed.Exec, allowed.Args)])

/-- C5: a static allowlisted command spawns exactly the configured
executable with exactly the configured argument list, and the spawned argv
is independent of the request's `Args` (any two requests naming the same
command spawn the identical list). -/
theorem localExecute_static_argv (cfg : BrokerConfig) (fs : FSOracle)
    (run : String → List String → RunOutcome) (store : CWDStore)
    (req : CommandRequest) (allowed : AllowedCommand)
    (hne : goTrim req.Command ≠ "")
    (hdyn : isDynamicAllowed (goTrim req.Command)
      cfg.LocalDynamicAllowlist = false)
    (hlook : cfg.LocalCommandAllowlist (goTrim req.Command) = some allowed) :
    (localExecute cfg fs run store req).2.2 =
      [(allowed.Exec, allowed.Args)] ∧
    (∀ req2 : CommandRequest, req2.Command = req.Command →
      (localExecute cfg fs run store req2).2.2 =
        [(allowed.Exec, allowed.Args)]) := by
  constructor
  · simp [localExecute, hne, hdyn, hlook]
  · intro req2 hcmd
    have hne2 : goTrim req2.Command ≠ "" := by rw [hcmd]; exact hne
    have hdyn2 : isDynamicAllowed (goTrim req2.Command)
        cfg.LocalDynamicAllowlist = false := by rw [hcmd]; exact hdyn
    have hlook2 : cfg.LocalCommandAllowlist (goTrim req2.Command) =
        some allowed := by rw [hcmd]; exact hlook
    simp [localExecute, hne2, hdyn2, hlook2]

/-- A run oracle whose every spawn exits cleanly with fixed output. -/
def runAlwaysOk : String → List String → RunOutcome :=
  fun _ _ => { err := none, stdout := "up\n", stderr := "" }

/-- Witness for C5: a `status` command configured as `/bin/uptime` with a
fixed flag; two requests differing in `Args` spawn the same argv. -/
theorem localExecute_static_argv_witness :
    (localExecute
      { LocalCommandAllowlist := fun c =>
          if c = "status" then some ⟨"/bin/uptime", ["-p"]⟩ else none,
        LocalMaxOutputKB := 8 }
      fsStatFails runAlwaysOk (fun _ => none)
      ⟨"status", 1, 9, "status", []⟩).2.2 = [("/bin/uptime", ["-p"])] ∧
    (localExecute
      { LocalCommandAllowlist := fun c =>
          if c = "status" then some ⟨"/bin/uptime", ["-p"]⟩ else none,
        LocalMaxOutputKB := 8 }
      fsStatFails runAlwaysOk (fun _ => none)
      ⟨"status", 1, 9, "status", ["rm", "-rf", "/"]⟩).2.2 =
      [("/bin/uptime", ["-p"])] := by
  have h := localExecute_static_argv
    { LocalCommandAllowlist := fun c =>
        if c = "status" then some ⟨"/bin/uptime", ["-p"]⟩ else none,
      LocalMaxOutputKB := 8 }
    fsStatFails runAlwaysOk (fun _ => none)
    ⟨"status", 1, 9, "status", []⟩ ⟨"/bin/uptime", ["-p"]⟩
    (by decide) (by decide) (by decide)
  exact ⟨h.1, h.2 ⟨"status", 1, 9, "status", ["rm", "-rf", "/"]⟩ rfl⟩

/-- C9: a request whose command is empty or whitespace-only is rejected by
the executor with `Ok = false`, exit 1 and error text "empty command",
without spawning any process and without touching the working-directory
state. -/
theorem localExecute_empty_command (cfg : BrokerConfig) (fs : FSOracle)
    (run : String → List String → RunOutcome) (store : CWDStore)
    (req : CommandRequest) (h : goTrim req.Command = "") :
    (localExecute cfg fs run store req).1 =
      { Ok := false, ExitCode := 1, Error := "empty command" } ∧
    (localExecute cfg fs run store req).2.2 = [] ∧
    (localExecute cfg fs run store req).2.1 = store := by
  simp [localExecute, h]

/-- Witness for C9: a whitespace-only command. -/
theorem localExecute_empty_command_witness :
    (localExecute { LocalMaxOutputKB := 8 } fsStatFails runAlwaysOk
      (fun _ => none) ⟨"   ", 1, 9, "   ", ["x"]⟩).1 =
      { Ok := false, ExitCode := 1, Error := "empty command" } ∧
    (localExecute { LocalMaxOutputKB := 8 } fsStatFails runAlwaysOk
      (fun _ => none) ⟨"   ", 1, 9, "   ", ["x"]⟩).2.2 = [] := by
  have h := localExecute_empty_command { LocalMaxOutputKB := 8 } fsStatFails
    runAlwaysOk (fun _ => none) ⟨"   ", 1, 9, "   ", ["x"]⟩ (by decide)
  exact ⟨h.1, h.2.1⟩

/-- A filesystem node kind: regular file or directory (the spec-modelled
handlers create no symlinks). -/
inductive FNode where
  | file
  | dir
deriving DecidableEq, Repr

/-- A concrete finite filesystem: association list from absolute paths to
node kinds. -/
abbrev FSMap := List (Path × FNode)

/-- Look a path up in the concrete filesystem. -/
def lookupFS (m : FSMap) (p : Path) : Option FNode :=
  match m.find? (fun e => e.1 = p) with
  | some e => some e.2
  | none => none

/-- The oracle a concrete symlink-free filesystem presents to
`sanitizePath` and `os.Stat`. -/
def oracleOfFS (m : FSMap) : FSOracle where
  lstatSymlink := fun _ => false
  evalSymlinks := fun _ => none
  statIsDir := fun p =>
    match lookupFS m p with
    | some FNode.dir => some true
    | some FNode.file => some false
    | none => none

/-- Insert a directory entry if absent. -/
def insertDir (m : FSMap) (p : Path) : FSMap :=
  match lookupFS m p with
  | some _ => m
  | none => (p, FNode.dir) :: m

/-- All component-list prefixes of a path, shortest first. -/
def prefixesOf (p : Path) : List Path :=
  (List.range (p.length + 1)).map (fun i => p.take i)

/-- Create a directory and all its ancestors (`os.MkdirAll`). -/
def mkdirAll (m : FSMap) (p : Path) : FSMap :=
  (prefixesOf p).foldl insertDir m

/-- Regular files directly inside a directory (non-recursive). -/
def countFiles (m : FSMap) (dirp : Path) : Nat :=
  (m.filter (fun e =>
    e.1.length = dirp.length + 1 && decide (dirp <+: e.1) &&
      e.2 = FNode.file)).length

/-- Modelled from the spec: the `touch` dynamic-command handler, which is
absent from the source tree (only the spec's catalog in §4.3, the broker
test `TestLocalExecutorTouchMkdirCountFind` and the LLM prompt reference
it). Per the spec: exactly one path argument, resolved through the
sandbox; creates the file if absent and does not truncate it if present. -/
def runSpecTouch (m : FSMap) (baseAbs cwd : Path) (args : List String) :
    CommandResponse × FSMap :=
  match args with
  | [a] =>
    match sanitizePath (oracleOfFS m) baseAbs cwd a with
    | .error e => ({ Ok := false, ExitCode := 1, Error := e }, m)
    | .ok p =>
      match lookupFS m p with
      | some _ => ({ Ok := true, ExitCode := 0 }, m)
      | none => ({ Ok := true, ExitCode := 0 }, (p, FNode.file) :: m)
  | _ =>
    ({ Ok := false, ExitCode := 1, Error := "touch requires exactly one path" },
      m)

/-- Modelled from the spec: the `mkdir` dynamic-command handler, absent
from the source tree. Per the spec: exactly one path argument, resolved
through the sandbox; creates the directory recursively. -/
def runSpecMkdir (m : FSMap) (baseAbs cwd : Path) (args : List String) :
    CommandResponse × FSMap :=
  match args with
  | [a] =>
    match sanitizePath (oracleOfFS m) baseAbs cwd a with
    | .error e => ({ Ok := false, ExitCode := 1, Error := e }, m)
    | .ok p => ({ Ok := true, ExitCode := 0 }, mkdirAll m p)
  | _ =>
    ({ Ok := false, ExitCode := 1, Error := "mkdir requires exactly one path" },
      m)

/-- Modelled from the spec: the `count` dynamic-command handler, absent
from the source tree. Per the spec: zero or one path argument (zero counts
in the chat working directory); a file target counts as 1; a directory
target yields the number of regular files directly inside it. -/
def runSpecCount (m : FSMap) (baseAbs cwd : Path) (args : List String) :
    CommandResponse :=
  match args with
  | [] =>
    { Ok := true, ExitCode := 0,
      Stdout := toString (countFiles m cwd) ++ "\n" }
  | [a] =>
    match sanitizePath (oracleOfFS m) baseAbs cwd a with
    | .error e => { Ok := false, ExitCode := 1, Error := e }
    | .ok p =>
      match lookupFS m p with
      | some FNode.file => { Ok := true, ExitCode := 0, Stdout := "1\n" }
      | some FNode.dir =>
        { Ok := true, ExitCode := 0,
          Stdout := toString (countFiles m p) ++ "\n" }
      | none => { Ok := false, ExitCode := 1, Error := "stat failed" }
  | _ =>
    { Ok := false, ExitCode := 1, Error := "count accepts at most one path" }

/-- Modelled from the spec: the dynamic dispatcher extended with the
`touch`, `mkdir` and `count` handlers of the spec's catalog (§4.3), which
the source dispatcher lacks; `pwd` and `cd` follow the source. The
process-spawning `ls`/`cat` handlers are embedded separately in
`handleDynamicCommand`. -/
def handleDynamicCommandFull (cfg : BrokerConfig) (m : FSMap)
    (store : CWDStore) (chatID : Int) (cmd : String) (args : List String) :
    CommandResponse × FSMap × CWDStore :=
  let base := goTrim cfg.LocalBaseDir
  if base = "" then
    ({ Ok := false, ExitCode := 1, Error := "local_base_dir not configured" },
      m, store)
  else
    let baseAbs := goAbs base
    if lowerStr cmd = "pwd" then
      let g := storeGet store chatID baseAbs
      ({ Ok := true, ExitCode := 0, Stdout := joinPath g.1 ++ "\n" }, m, g.2)
    else if lowerStr cmd = "cd" then
      let r := runSafeCd (oracleOfFS m) baseAbs store chatID args
      (r.1, m, r.2)
    else if lowerStr cmd = "touch" then
      let g := storeGet store chatID baseAbs
      let r := runSpecTouch m baseAbs g.1 args
      (r.1, r.2, g.2)
    else if lowerStr cmd = "mkdir" then
      let g := storeGet store chatID baseAbs
      let r := runSpecMkdir m baseAbs g.1 args
      (r.1, r.2, g.2)
    else if lowerStr cmd = "count" then
      let g := storeGet store chatID baseAbs
      (runSpecCount m baseAbs g.1 args, m, g.2)
    else
      ({ Ok := false, ExitCode := 1, Error := "unsupported dynamic command" },
        m, store)

/-- The dynamic-command path of `localExecutor.Execute` over the concrete
filesystem: trim, empty check, dynamic allowlist, then the (spec-extended)
dispatcher. -/
def execDyn (cfg : BrokerConfig) (m : FSMap) (store : CWDStore)
    (req : CommandRequest) : CommandResponse × FSMap × CWDStore :=
  let cmdName := goTrim req.Command
  if cmdName = "" then
    ({ Ok := false, ExitCode := 1, Error := "empty command" }, m, store)
  else if isDynamicAllowed cmdName cfg.LocalDynamicAllowlist then
    handleDynamicCommandFull cfg m store req.ChatID cmdName req.Args
  else
    ({ Ok := false, ExitCode := 1, Error := "command not allowed" }, m, store)

/-- The broker configuration of the end-to-end scenario: base `/srv`,
dynamic commands `mkdir`, `touch`, `count`. -/
def cfgE2E : BrokerConfig :=
  { LocalBaseDir := "/srv",
    LocalDynamicAllowlist := ["mkdir", "touch", "count"],
    LocalDefaultTimeoutSec := 10, LocalMaxOutputKB := 8 }

/-- C8: with `mkdir`, `touch` and `count` dynamically allowlisted, running
`mkdir Movies`, `touch Movies/a.mp4`, `touch Movies/b.mp4`, `count Movies`
in one chat yields a successful final response whose stdout is `"2\n"` —
the directory holds exactly two regular files. -/
theorem mkdir_touch_count_e2e :
    (execDyn cfgE2E
      (execDyn cfgE2E
        (execDyn cfgE2E
          (execDyn cfgE2E [(["srv"], FNode.dir)] (fun _ => none)
            ⟨"mkdir", 1, 1, "mkdir Movies", ["Movies"]⟩).2.1
          (execDyn cfgE2E [(["srv"], FNode.dir)] (fun _ => none)
            ⟨"mkdir", 1, 1, "mkdir Movies", ["Movies"]⟩).2.2
          ⟨"touch", 1, 1, "touch Movies/a.mp4", ["Movies/a.mp4"]⟩).2.1
        (execDyn cfgE2E
          (execDyn cfgE2E [(["srv"], FNode.dir)] (fun _ => none)
            ⟨"mkdir", 1, 1, "mkdir Movies", ["Movies"]⟩).2.1
          (execDyn cfgE2E [(["srv"], FNode.dir)] (fun _ => none)
            ⟨"mkdir", 1, 1, "mkdir Movies", ["Movies"]⟩).2.2
          ⟨"touch", 1, 1, "touch Movies/a.mp4", ["Movies/a.mp4"]⟩).2.2
        ⟨"touch", 1, 1, "touch Movies/b.mp4", ["Movies/b.mp4"]⟩).2.1
      (execDyn cfgE2E
        (execDyn cfgE2E
          (execDyn cfgE2E [(["srv"], FNode.dir)] (fun _ => none)
            ⟨"mkdir", 1, 1, "mkdir Movies", ["Movies"]⟩).2.1
          (execDyn cfgE2E [(["srv"], FNode.dir)] (fun _ => none)
            ⟨"mkdir", 1, 1, "mkdir Movies", ["Movies"]⟩).2.2
          ⟨"touch", 1, 1, "touch Movies/a.mp4", ["Movies/a.mp4"]⟩).2.1
        (execDyn cfgE2E
          (execDyn cfgE2E [(["srv"], FNode.dir)] (fun _ => none)
            ⟨"mkdir", 1, 1, "mkdir Movies", ["Movies"]⟩).2.1
          (execDyn cfgE2E [(["srv"], FNode.dir)] (fun _ => none)
            ⟨"mkdir", 1, 1, "mkdir Movies", ["Movies"]⟩).2.2
          ⟨"touch", 1, 1, "touch Movies/a.mp4", ["Movies/a.mp4"]⟩).2.2
        ⟨"touch", 1, 1, "touch Movies/b.mp4", ["Movies/b.mp4"]⟩).2.2
      ⟨"count", 1, 1, "count Movies", ["Movies"]⟩).1.Ok = true ∧
    (execDyn cfgE2E
      (execDyn cfgE2E
        (execDyn cfgE2E
          (execDyn cfgE2E [(["srv"], FNode.dir)] (fun _ => none)
            ⟨"mkdir", 1, 1, "mkdir Movies", ["Movies"]⟩).2.1
          (execDyn cfgE2E [(["srv"], FNode.dir)] (fun _ => none)
            ⟨"mkdir", 1, 1, "mkdir Movies", ["Movies"]⟩).2.2
          ⟨"touch", 1, 1, "touch Movies/a.mp4", ["Movies/a.mp4"]⟩).2.1
        (execDyn cfgE2E
          (execDyn cfgE2E [(["srv"], FNode.dir)] (fun _ => none)
            ⟨"mkdir", 1, 1, "mkdir Movies", ["Movies"]⟩).2.1
          (execDyn cfgE2E [(["srv"], FNode.dir)] (fun _ => none)
            ⟨"mkdir", 1, 1, "mkdir Movies", ["Movies"]⟩).2.2
          ⟨"touch", 1, 1, "touch Movies/a.mp4", ["Movies/a.mp4"]⟩).2.2
        ⟨"touch", 1, 1, "touch Movies/b.mp4", ["Movies/b.mp4"]⟩).2.1
      (execDyn cfgE2E
        (execDyn cfgE2E
          (execDyn cfgE2E [(["srv"], FNode.dir)] (fun _ => none)
            ⟨"mkdir", 1, 1, "mkdir Movies", ["Movies"]⟩).2.1
          (execDyn cfgE2E [(["srv"], FNode.dir)] (fun _ => none)
            ⟨"mkdir", 1, 1, "mkdir Movies", ["Movies"]⟩).2.2
          ⟨"touch", 1, 1, "touch Movies/a.mp4", ["Movies/a.mp4"]⟩).2.1
        (execDyn cfgE2E
          (execDyn cfgE2E [(["srv"], FNode.dir)] (fun _ => none)
            ⟨"mkdir", 1, 1, "mkdir Movies", ["Movies"]⟩).2.1
          (execDyn cfgE2E [(["srv"], FNode.dir)] (fun _ => none)
            ⟨"mkdir", 1, 1, "mkdir Movies", ["Movies"]⟩).2.2
          ⟨"touch", 1, 1, "touch Movies/a.mp4", ["Movies/a.mp4"]⟩).2.2
        ⟨"touch", 1, 1, "touch Movies/b.mp4", ["Movies/b.mp4"]⟩).2.2
      ⟨"count", 1, 1, "count Movies", ["Movies"]⟩).1.Stdout = "2\n" := by
  constructor <;> rfl

end Shelly
